import Mathlib

/-!
Verification of the `git-hash` snippet-caching tool (`src/main.rs`).

The program resolves a (git URL, branch/tag/commit selector, file path)
request to a concrete commit, derives a cache-key from the request, and
caches the file's content under `.snippets/{key}-{commit}.rs`.

Shallow embedding conventions:
* `hash_string` is the real SHA-256, truncated to the first 8 hex
  characters, exactly as `format!("{:.8x}", hasher.finalize())` does
  (main.rs lines 28-32).  SHA-256 itself is implemented over `Nat` with
  explicit truncation modulo 2^32.
* The network (libgit2 remote access) is an explicit environment
  `RemoteEnv`: the remote's advertised HEAD, the commit each ref peels
  to, and the tree reachable from each commit (a map from relative path
  to raw file bytes).  Each operation may fail, modelling transport and
  lookup errors.
* Effects are explicit state passing: a run maps an initial `Store`
  (the `.snippets` directory) to a result, a final store and a trace of
  `Event`s (remote round trips and store mutations).
* Rust string operations (`starts_with`, `strip_suffix`, `split('-')`)
  are byte-wise on UTF-8; byte-wise prefix/suffix/split-on-ASCII of
  valid UTF-8 coincides with character-wise, so they are modelled on
  `String.data` character lists.
* Local filesystem primitives (`create_dir_all`, `remove_file` of an
  existing file, `fs::write`) are modelled as succeeding; the errors the
  claims distinguish (resolution, fetch, file-not-found, invalid UTF-8
  data) are modelled exactly.
-/

namespace GitHash

set_option maxRecDepth 65536

/-! ## SHA-256 (the `sha2` crate's digest), over `Nat` -/

/-- Truncation to 32 bits: Rust `u32` arithmetic wraps modulo 2^32. -/
def w32 (n : Nat) : Nat := n % 4294967296

/-- Right rotation of a 32-bit word. -/
def rotr (k x : Nat) : Nat := w32 ((x >>> k) ||| (x <<< (32 - k)))

/-- Bitwise complement on 32 bits. -/
def not32 (x : Nat) : Nat := 4294967295 ^^^ x

/-- SHA-256 Σ₀. -/
def bsig0 (x : Nat) : Nat := rotr 2 x ^^^ rotr 13 x ^^^ rotr 22 x

/-- SHA-256 Σ₁. -/
def bsig1 (x : Nat) : Nat := rotr 6 x ^^^ rotr 11 x ^^^ rotr 25 x

/-- SHA-256 σ₀. -/
def ssig0 (x : Nat) : Nat := rotr 7 x ^^^ rotr 18 x ^^^ (x >>> 3)

/-- SHA-256 σ₁. -/
def ssig1 (x : Nat) : Nat := rotr 17 x ^^^ rotr 19 x ^^^ (x >>> 10)

/-- SHA-256 choice function. -/
def chf (x y z : Nat) : Nat := (x &&& y) ^^^ (not32 x &&& z)

/-- SHA-256 majority function. -/
def majf (x y z : Nat) : Nat := (x &&& y) ^^^ (x &&& z) ^^^ (y &&& z)

/-- The 64 SHA-256 round constants (FIPS 180-4), in decimal. -/
def sha256K : List Nat :=
  [1116352408, 1899447441, 3049323471, 3921009573, 961987163, 1508970993, 2453635748,
   2870763221, 3624381080, 310598401, 607225278, 1426881987, 1925078388, 2162078206,
   2614888103, 3248222580, 3835390401, 4022224774, 264347078, 604807628, 770255983,
   1249150122, 1555081692, 1996064986, 2554220882, 2821834349, 2952996808, 3210313671,
   3336571891, 3584528711, 113926993, 338241895, 666307205, 773529912, 1294757372,
   1396182291, 1695183700, 1986661051, 2177026350, 2456956037, 2730485921, 2820302411,
   3259730800, 3345764771, 3516065817, 3600352804, 4094571909, 275423344, 430227734,
   506948616, 659060556, 883997877, 958139571, 1322822218, 1537002063, 1747873779,
   1955562222, 2024104815, 2227730452, 2361852424, 2428436474, 2756734187, 3204031479,
   3329325298]

/-- The SHA-256 initial hash state (FIPS 180-4), in decimal. -/
def sha256H0 : List Nat :=
  [1779033703, 3144134277, 1013904242, 2773480762, 1359893119, 2600822924, 528734635,
   1541459225]

/-- Big-endian byte decomposition: `beBytes n v` is `v` as `n` bytes, most
significant first. -/
def beBytes : Nat → Nat → List Nat
  | 0, _ => []
  | n + 1, v => beBytes n (v >>> 8) ++ [v &&& 255]

/-- SHA-256 padding: append `0x80`, zeros to 56 mod 64 bytes, then the
64-bit big-endian bit length. -/
def padMsg (m : List Nat) : List Nat :=
  m ++ 0x80 :: List.replicate ((119 - m.length % 64) % 64) 0 ++ beBytes 8 (8 * m.length)

/-- Group bytes into big-endian 32-bit words. -/
def toWords : List Nat → List Nat
  | b0 :: b1 :: b2 :: b3 :: rest =>
    ((((b0 <<< 8) ||| b1) <<< 8 ||| b2) <<< 8 ||| b3) :: toWords rest
  | _ => []

/-- Extend the 16 words of a block to the 64-word message schedule. -/
def msgSchedule (ws : List Nat) : List Nat :=
  (List.range 48).foldl
    (fun a i =>
      let t := i + 16
      a ++ [w32 (ssig1 (a.getD (t - 2) 0) + a.getD (t - 7) 0 + ssig0 (a.getD (t - 15) 0) +
        a.getD (t - 16) 0)])
    ws

/-- The 64 compression rounds, over the 8-word working state. -/
def compressRounds : List Nat → List Nat → List Nat → List Nat
  | kt :: ks, wt :: ws, [a, b, c, d, e, f, g, h] =>
    let t1 := w32 (h + bsig1 e + chf e f g + kt + wt)
    let t2 := w32 (bsig0 a + majf a b c)
    compressRounds ks ws [w32 (t1 + t2), a, b, c, w32 (d + t1), e, f, g]
  | _, _, st => st

/-- Compress one 64-byte block into the hash state. -/
def compressBlock (h : List Nat) (block : List Nat) : List Nat :=
  List.zipWith (fun x y => w32 (x + y)) h (compressRounds sha256K (msgSchedule (toWords block)) h)

/-- Fold the compression over `n` consecutive 64-byte blocks. -/
def blocksLoop : Nat → List Nat → List Nat → List Nat
  | 0, h, _ => h
  | n + 1, h, msg => blocksLoop n (compressBlock h (msg.take 64)) (msg.drop 64)

/-- SHA-256 digest of a byte sequence, as 32 bytes. -/
def sha256 (msg : List Nat) : List Nat :=
  let padded := padMsg msg
  ((blocksLoop (padded.length / 64) sha256H0 padded).map (beBytes 4)).flatten

/-- UTF-8 encoding of one unicode scalar value, as Rust `str` stores it. -/
def utf8Bytes (c : Char) : List Nat :=
  let n := c.toNat
  if n < 0x80 then [n]
  else if n < 0x800 then [0xC0 ||| (n >>> 6), 0x80 ||| (n &&& 0x3F)]
  else if n < 0x10000 then
    [0xE0 ||| (n >>> 12), 0x80 ||| ((n >>> 6) &&& 0x3F), 0x80 ||| (n &&& 0x3F)]
  else
    [0xF0 ||| (n >>> 18), 0x80 ||| ((n >>> 12) &&& 0x3F), 0x80 ||| ((n >>> 6) &&& 0x3F),
     0x80 ||| (n &&& 0x3F)]

/-- The UTF-8 bytes of a string (`input.as_bytes()` in Rust). -/
def strBytes (s : String) : List Nat := (s.data.map utf8Bytes).flatten

/-- Lowercase hex digit of a value below 16. -/
def hexDigit (n : Nat) : Char := if n < 10 then Char.ofNat (48 + n) else Char.ofNat (87 + n)

/-- Lowercase hex rendering of a byte list. -/
def bytesHex (bs : List Nat) : String :=
  String.mk ((bs.map (fun b => [hexDigit (b >>> 4), hexDigit (b &&& 15)])).flatten)

/-! ## The hashing helpers (main.rs lines 27-42) -/

/-- Rust `hash_string` (main.rs 28-32): `format!("{:.8x}", Sha256(input))`,
the first 8 hex characters (= first 4 bytes) of the digest. -/
def hash_string (input : String) : String := bytesHex ((sha256 (strBytes input)).take 4)

/-- Rust `hash_git_url` (main.rs 34-37): hash of the repository URL
(the `println!` progress output is not modelled). -/
def hash_git_url (url : String) : String := hash_string url

/-- Rust `hash_git_option` (main.rs 39-42): hash of `"{type}-{value}"`. -/
def hash_git_option (option_type value : String) : String :=
  hash_string (option_type ++ "-" ++ value)

/-! ## Rust string/path primitives used by the program -/

/-- Rust `str::starts_with` (byte prefix; on valid UTF-8 this coincides
with character prefix). -/
def starts_with (s pre : String) : Bool := pre.data.isPrefixOf s.data

/-- Rust `str::ends_with`. -/
def ends_with (s suf : String) : Bool := suf.data.isSuffixOf s.data

/-- Rust `str::split(sep)` on a character list: splits at every separator,
keeping empty pieces, never returning an empty list. -/
def splitOnChar (sep : Char) : List Char → List (List Char)
  | [] => [[]]
  | c :: rest =>
    if c = sep then [] :: splitOnChar sep rest
    else
      match splitOnChar sep rest with
      | s :: ss => (c :: s) :: ss
      | [] => [[c]]

/-- Rust `PathBuf::from(path).file_name()` followed by `unwrap_or("unknown")`
(main.rs 60-64): the final path component, ignoring empty and `.`
components; `..` as final component, or no component at all, gives the
placeholder `"unknown"`. -/
def file_name_of (path : String) : String :=
  let comps := (splitOnChar '/' path.data).filter (fun c => !c.isEmpty && c != ['.'])
  match comps.getLast? with
  | some c => if c = ['.', '.'] then "unknown" else String.mk c
  | none => "unknown"

/-! ## SnippetFile (main.rs lines 44-111) -/

/-- Rust `SnippetFile` (main.rs 45-49): a parsed snippet filename.  The
field `pfx` models the Rust field holding the commit-independent cache-key
prefix (its Rust name is a Lean keyword). -/
structure SnippetFile where
  pfx : String
  commit_hash : String
  full_name : String
  deriving DecidableEq

/-- Rust `SnippetFile::new` (main.rs 53-81): derive the cache-key prefix
`"{H(url)}-{H(type-value)}-{H(path)}-{file_name}"` and the full filename
`"{prefix}-{commit_sha}.rs"`. -/
def SnippetFile.new (git_url git_option_type git_option_value path commit_sha : String) :
    SnippetFile :=
  let file_name := file_name_of path
  let p := hash_git_url git_url ++ "-" ++ hash_git_option git_option_type git_option_value ++
    "-" ++ hash_string path ++ "-" ++ file_name
  { pfx := p, commit_hash := commit_sha, full_name := p ++ "-" ++ commit_sha ++ ".rs" }

/-- Commit-hash extraction from a snippet filename (main.rs 95-99):
`strip_suffix(".rs")?` then the last hyphen-delimited fragment
(`rsplit('-').next()`, which always yields one fragment). -/
def extract_commit_hash (file_name : String) : Option String :=
  if ends_with file_name ".rs" then
    (splitOnChar '-' (file_name.data.take (file_name.data.length - 3))).getLast?.map String.mk
  else
    none

/-- The `.snippets` directory: whether it exists, and its entries as
(filename, raw content bytes) pairs in directory-iteration order. -/
structure Store where
  dirExists : Bool
  files : List (String × List Nat)
  deriving DecidableEq

/-- Rust `SnippetFile::find_existing` (main.rs 83-110): `None` when the
`.snippets` directory does not exist; otherwise the first directory entry
whose name starts with the prefix and ends in `.rs` (an entry without the
`.rs` suffix is skipped by the `?` inside the closure). -/
def find_existing (store : Store) (pre : String) : Option SnippetFile :=
  if store.dirExists then
    store.files.findSome? (fun entry =>
      if starts_with entry.1 pre then
        match extract_commit_hash entry.1 with
        | some ch => some { pfx := pre, commit_hash := ch, full_name := entry.1 }
        | none => none
      else none)
  else none

/-- Rust `fs::remove_file` on `.snippets/{name}` (main.rs 190): directory
entries have unique names, so this drops the entry named `name`. -/
def removeRecord (store : Store) (name : String) : Store :=
  { store with files := store.files.filter (fun entry => entry.1 != name) }

/-! ## The effect model -/

/-- Parsed command-line arguments (main.rs 8-25). -/
structure Args where
  git : String
  branch : Option String
  tag : Option String
  commit_hash : Option String
  path : String
  deriving DecidableEq

/-- Observable operations of one run: the remote-HEAD listing handshake
(`remote.connect` + `default_branch`), a ref fetch during resolution, the
single-commit content fetch of materialization, and store mutations. -/
inductive Event where
  | defaultBranchLookup : Event
  | refFetch : String → Event
  | commitFetch : String → Event
  | removeFile : String → Event
  | writeFile : String → Event
  deriving DecidableEq

/-- Error kinds a run surfaces (the Rust code returns `Box<dyn Error>`;
the kinds are distinguished by the underlying error type): the explicit
selector-validation error, a resolution (ref lookup) failure, a content
fetch failure, `io::ErrorKind::NotFound` from `read_to_string` on a
missing path, and `io::ErrorKind::InvalidData` from `read_to_string` on
non-UTF-8 content. -/
inductive MainError where
  | validation : String → MainError
  | resolution : String → MainError
  | fetch : String → MainError
  | fileNotFound : MainError
  | invalidData : MainError
  deriving DecidableEq

/-- The remote repository as the transport sees it: the advertised HEAD
(default branch) of the remote named by `--git`, the commit each branch or
tag ref peels to (fetch + `find_reference` + `peel_to_commit`, collapsed
into one fallible lookup), and for each commit the tree reachable from it,
as a map from relative path to raw file bytes (`Except.error` when the
commit cannot be fetched or found). -/
structure RemoteEnv where
  defaultBranch : Except String String
  branchCommit : String → Except String String
  tagCommit : String → Except String String
  commitTree : String → Except String (String → Option (List Nat))

deriving instance DecidableEq for Except

/-- Outcome of a run: the result (`Except.ok` carries the reported snippet
path), the final store, and the trace of events in order. -/
structure RunOut where
  result : Except MainError String
  store : Store
  events : List Event
  deriving DecidableEq

/-- UTF-8 continuation byte. -/
def utf8Cont (b : Nat) : Bool := decide (0x80 ≤ b ∧ b ≤ 0xBF)

/-- UTF-8 validity of a byte sequence (RFC 3629, the check Rust's
`String::from_utf8` / `read_to_string` performs): ASCII, and 2-4 byte
sequences with the required continuation ranges, rejecting overlong forms,
surrogates and values above U+10FFFF. -/
def isUtf8 : List Nat → Bool
  | [] => true
  | b :: rest =>
    if b ≤ 0x7F then isUtf8 rest
    else if b < 0xC2 then false
    else if b ≤ 0xDF then
      match rest with
      | c1 :: r => utf8Cont c1 && isUtf8 r
      | [] => false
    else if b ≤ 0xEF then
      match rest with
      | c1 :: c2 :: r =>
        (if b = 0xE0 then decide (0xA0 ≤ c1 ∧ c1 ≤ 0xBF)
         else if b = 0xED then decide (0x80 ≤ c1 ∧ c1 ≤ 0x9F)
         else utf8Cont c1) && utf8Cont c2 && isUtf8 r
      | _ => false
    else if b ≤ 0xF4 then
      match rest with
      | c1 :: c2 :: c3 :: r =>
        (if b = 0xF0 then decide (0x90 ≤ c1 ∧ c1 ≤ 0xBF)
         else if b = 0xF4 then decide (0x80 ≤ c1 ∧ c1 ≤ 0x8F)
         else utf8Cont c1) && utf8Cont c2 && utf8Cont c3 && isUtf8 r
      | _ => false
    else false

/-! ## The program's functions (main.rs 113-375) -/

/-- Strip a leading `refs/heads/` namespace
(`strip_prefix("refs/heads/").unwrap_or(..)`, main.rs 254-256, 370-373). -/
def stripHeads (s : String) : String :=
  if starts_with s "refs/heads/" then String.mk (s.data.drop 11) else s

/-- Rust `get_default_branch` (main.rs 353-374): connect to the remote,
read its advertised default branch, strip `refs/heads/`. -/
def get_default_branch (env : RemoteEnv) (_git_url : String) :
    Except String String × List Event :=
  match env.defaultBranch with
  | .error e => (.error e, [.defaultBranchLookup])
  | .ok db => (.ok (stripHeads db), [.defaultBranchLookup])

/-- Rust `get_remote_commit_sha_without_clone` (main.rs 230-296): first
the remote-HEAD handshake (always, lines 243-251, even when a tag or an
explicit branch makes its result unnecessary), then a fetch of the one
required ref, then peeling that ref to a commit id. -/
def get_remote_commit_sha_without_clone (env : RemoteEnv) (_git_url : String)
    (branch tag : Option String) : Except String String × List Event :=
  match env.defaultBranch with
  | .error e => (.error e, [.defaultBranchLookup])
  | .ok db0 =>
    let default_branch := stripHeads db0
    match tag with
    | some tag_name =>
      (env.tagCommit tag_name,
       [.defaultBranchLookup,
        .refFetch ("refs/tags/" ++ tag_name ++ ":refs/tags/" ++ tag_name)])
    | none =>
      let branch_name := branch.getD default_branch
      (env.branchCommit branch_name,
       [.defaultBranchLookup,
        .refFetch ("refs/heads/" ++ branch_name ++ ":refs/heads/" ++ branch_name)])

/-- Rust `clone_and_checkout_repo` (main.rs 298-343): a depth-1 fetch of
exactly the requested commit (`+{sha}:refs/heads/temp`) into a fresh
temporary workspace, then checkout of that commit's tree.  Commit
existence is checked here (`remote.fetch` / `find_commit` fail on an
unknown sha): that is the `Except.error` case of `commitTree`. -/
def clone_and_checkout_repo (env : RemoteEnv) (_git_url : String) (commit_sha : String) :
    Except String (String → Option (List Nat)) × List Event :=
  (env.commitTree commit_sha, [.commitFetch commit_sha])

/-- Rust `std::fs::read_to_string(temp_dir.join(path))` (main.rs 211):
`NotFound` when the path is absent from the checked-out tree, `InvalidData`
when the bytes are not valid UTF-8, otherwise exactly the file's bytes. -/
def read_to_string (workspace : String → Option (List Nat)) (path : String) :
    Except MainError (List Nat) :=
  match workspace path with
  | none => .error .fileNotFound
  | some bytes => if isUtf8 bytes then .ok bytes else .error .invalidData

/-- Main, after the snippet was found stale or absent (main.rs 199-227):
clone and checkout the resolved commit, read the requested file, write the
new snippet record.  `evs` is the trace accumulated by the cache check
(the removal of a stale record, when one existed). -/
def fetchAndWrite (args : Args) (env : RemoteEnv) (snip : SnippetFile) (store : Store)
    (evs : List Event) : RunOut :=
  match clone_and_checkout_repo env args.git snip.commit_hash with
  | (.error e, cevs) => ⟨.error (.fetch e), store, evs ++ cevs⟩
  | (.ok workspace, cevs) =>
    match read_to_string workspace args.path with
    | .error e => ⟨.error e, store, evs ++ cevs⟩
    | .ok content =>
      ⟨.ok (".snippets/" ++ snip.full_name),
       { store with files := store.files ++ [(snip.full_name, content)] },
       evs ++ cevs ++ [.writeFile snip.full_name]⟩

/-- Main, from the cache check on (main.rs 164-227), with the resolved
`(git_option_type, git_option_value, commit_sha)` triple in hand: build
the new `SnippetFile`; if a record with the same prefix exists and embeds
the same commit, report it up to date (no store change, no further
events); if it embeds a different commit, remove it first (main.rs 190),
then — in either remaining case — `create_dir_all(".snippets")`
(main.rs 196) and fetch, read and write. -/
def afterResolve (args : Args) (env : RemoteEnv)
    (git_option_type git_option_value commit_sha : String) (store : Store) : RunOut :=
  let new_snippet := SnippetFile.new args.git git_option_type git_option_value args.path commit_sha
  match find_existing store new_snippet.pfx with
  | some existing_snippet =>
    if existing_snippet.commit_hash = commit_sha then
      ⟨.ok (".snippets/" ++ existing_snippet.full_name), store, []⟩
    else
      fetchAndWrite args env new_snippet
        { removeRecord store existing_snippet.full_name with dirExists := true }
        [.removeFile existing_snippet.full_name]
  | none => fetchAndWrite args env new_snippet { store with dirExists := true } []

/-- Selector count (main.rs 117-124): how many of branch, tag, commit_hash
were supplied. -/
def options_count (args : Args) : Nat :=
  ([args.branch.isSome, args.tag.isSome, args.commit_hash.isSome].filter (fun b => b)).length

/-- Rust `main` (main.rs 113-228): validate that at most one selector was
supplied, resolve the selector to a commit sha (commit hash taken as is;
tag via one remote resolution; branch — explicit or defaulted — via
`get_default_branch` and then a second remote resolution), then proceed
with the cache check and, when needed, the fetch. -/
def gitMain (args : Args) (env : RemoteEnv) (store : Store) : RunOut :=
  if options_count args > 1 then
    ⟨.error (.validation "Only one of --branch, --tag, or --commit_hash can be specified"),
     store, []⟩
  else
    match args.commit_hash with
    | some hash => afterResolve args env "commit" hash hash store
    | none =>
      match args.tag with
      | some tag =>
        match get_remote_commit_sha_without_clone env args.git none (some tag) with
        | (.error e, evs) => ⟨.error (.resolution e), store, evs⟩
        | (.ok commit_sha, evs) =>
          let out := afterResolve args env "tag" tag commit_sha store
          ⟨out.result, out.store, evs ++ out.events⟩
      | none =>
        match get_default_branch env args.git with
        | (.error e, evs) => ⟨.error (.resolution e), store, evs⟩
        | (.ok default_branch, evs1) =>
          let branch_name := args.branch.getD default_branch
          match get_remote_commit_sha_without_clone env args.git (some branch_name) none with
          | (.error e, evs2) => ⟨.error (.resolution e), store, evs1 ++ evs2⟩
          | (.ok commit_sha, evs2) =>
            let out := afterResolve args env "branch" branch_name commit_sha store
            ⟨out.result, out.store, evs1 ++ evs2 ++ out.events⟩

/-! ## The spec's cache-key formula (for claim C2) -/

/-- Modelled from the spec (section 3, CacheKey), word for word:
`prefix = H(H(repo_url) ‖ "-" ‖ H(selector_kind ‖ "-" ‖ selector_value) ‖
"-" ‖ H(full_path) ‖ "-" ‖ base_name)`, with the OUTER application of the
digest function `H` that the formula states. -/
def specCacheKey (repo_url selector_kind selector_value full_path : String) : String :=
  hash_string (hash_string repo_url ++ "-" ++
    hash_string (selector_kind ++ "-" ++ selector_value) ++ "-" ++
    hash_string full_path ++ "-" ++ file_name_of full_path)

/-- The spec's cache-key formula amended: the same concatenation with no
outer digest application, which is what the code computes. -/
def specCacheKeyAmended (repo_url selector_kind selector_value full_path : String) : String :=
  hash_string repo_url ++ "-" ++ hash_string (selector_kind ++ "-" ++ selector_value) ++ "-" ++
    hash_string full_path ++ "-" ++ file_name_of full_path

/-! ## Helper lemmas -/

/-- Characters of an appended string. -/
theorem data_append (a b : String) : (a ++ b).data = a.data ++ b.data := by
  cases a; cases b; rfl

/-- Strings with the same characters are equal. -/
theorem data_inj {a b : String} (h : a.data = b.data) : a = b := by
  cases a; cases b; exact congrArg String.mk h

/-- A snippet filename starts with its prefix. -/
theorem starts_with_full_name (p c s : String) : starts_with (p ++ "-" ++ c ++ s) p = true := by
  simp only [starts_with, data_append, List.append_assoc]
  rw [List.isPrefixOf_iff_prefix]
  exact List.prefix_append _ _

/-- Snippet filenames over the same prefix with different embedded commits
differ. -/
theorem full_name_ne {a b : String} (p s : String) (h : a ≠ b) :
    p ++ "-" ++ a ++ s ≠ p ++ "-" ++ b ++ s := by
  intro he
  apply h
  have hd := congrArg String.data he
  simp only [data_append] at hd
  exact data_inj (List.append_cancel_left (List.append_cancel_right hd))

/-- Exhaustive outcome analysis of `fetchAndWrite`: a fetch failure, a
missing path, invalid data (store untouched, only the commit fetch added
to the trace), or success (exactly the new record appended, then the
write event). -/
theorem fetchAndWrite_shape (args : Args) (env : RemoteEnv) (snip : SnippetFile) (store : Store)
    (evs : List Event) :
    (∃ e, fetchAndWrite args env snip store evs =
      ⟨.error (.fetch e), store, evs ++ [.commitFetch snip.commit_hash]⟩) ∨
    fetchAndWrite args env snip store evs =
      ⟨.error .fileNotFound, store, evs ++ [.commitFetch snip.commit_hash]⟩ ∨
    fetchAndWrite args env snip store evs =
      ⟨.error .invalidData, store, evs ++ [.commitFetch snip.commit_hash]⟩ ∨
    ∃ content, fetchAndWrite args env snip store evs =
      ⟨.ok (".snippets/" ++ snip.full_name),
       { store with files := store.files ++ [(snip.full_name, content)] },
       evs ++ [.commitFetch snip.commit_hash] ++ [.writeFile snip.full_name]⟩ := by
  rcases henv : env.commitTree snip.commit_hash with e | ws
  · exact .inl ⟨e, by simp [fetchAndWrite, clone_and_checkout_repo, henv]⟩
  · rcases hw : ws args.path with _ | bytes
    · exact .inr (.inl (by simp [fetchAndWrite, clone_and_checkout_repo, read_to_string, henv, hw]))
    · by_cases hu : isUtf8 bytes
      · exact .inr (.inr (.inr ⟨bytes,
          by simp [fetchAndWrite, clone_and_checkout_repo, read_to_string, henv, hw, hu]⟩))
      · exact .inr (.inr (.inl
          (by simp [fetchAndWrite, clone_and_checkout_repo, read_to_string, henv, hw, hu])))

/-- The trace of `fetchAndWrite` is the accumulated trace, the commit
fetch, and possibly the final write. -/
theorem fetchAndWrite_events_cases (args : Args) (env : RemoteEnv) (snip : SnippetFile)
    (store : Store) (evs : List Event) :
    (fetchAndWrite args env snip store evs).events = evs ++ [Event.commitFetch snip.commit_hash] ∨
    (fetchAndWrite args env snip store evs).events =
      evs ++ [Event.commitFetch snip.commit_hash] ++ [Event.writeFile snip.full_name] := by
  rcases fetchAndWrite_shape args env snip store evs with ⟨e, h⟩ | h | h | ⟨c, h⟩ <;>
    (rw [h]; simp)

/-- When `fetchAndWrite` fails, it does not change the store it was
handed. -/
theorem fetchAndWrite_store_on_error (args : Args) (env : RemoteEnv) (snip : SnippetFile)
    (store : Store) (evs : List Event) (err : MainError)
    (h : (fetchAndWrite args env snip store evs).result = .error err) :
    (fetchAndWrite args env snip store evs).store = store := by
  rcases fetchAndWrite_shape args env snip store evs with ⟨e, he⟩ | he | he | ⟨c, he⟩ <;>
    rw [he] <;> rw [he] at h <;> simp_all

/-- The error of a failed `fetchAndWrite` is a fetch, file-not-found or
invalid-data error — never a resolution or validation error. -/
theorem fetchAndWrite_result_kinds (args : Args) (env : RemoteEnv) (snip : SnippetFile)
    (store : Store) (evs : List Event) (e : String) :
    (fetchAndWrite args env snip store evs).result ≠ .error (.resolution e) ∧
    (fetchAndWrite args env snip store evs).result ≠ .error (.validation e) := by
  rcases fetchAndWrite_shape args env snip store evs with ⟨f, hf⟩ | hf | hf | ⟨c, hf⟩ <;>
    rw [hf] <;> simp

/-- Events that are local to the store or the content fetch — not part of
reference resolution. -/
def isLocalEvent : Event → Bool
  | .defaultBranchLookup => false
  | .refFetch _ => false
  | .commitFetch _ => true
  | .removeFile _ => true
  | .writeFile _ => true

/-- Everything `afterResolve` traces is a store operation or the content
fetch: no default-branch handshake, no ref fetch. -/
theorem afterResolve_events_local (args : Args) (env : RemoteEnv)
    (t v sha : String) (store : Store) :
    ∀ ev ∈ (afterResolve args env t v sha store).events, isLocalEvent ev = true := by
  have key : ∀ (st : Store) (evs0 : List Event), (∀ e0 ∈ evs0, isLocalEvent e0 = true) →
      ∀ ev ∈ (fetchAndWrite args env ( SnippetFile.new args.git t v args.path sha) st
        evs0).events, isLocalEvent ev = true := by
    intro st evs0 h0 ev hev
    rcases fetchAndWrite_events_cases args env _ st evs0 with h | h <;> rw [h] at hev <;>
      simp only [List.mem_append, List.mem_singleton] at hev
    · rcases hev with hev | rfl
      · exact h0 ev hev
      · rfl
    · rcases hev with (hev | rfl) | rfl
      · exact h0 ev hev
      · rfl
      · rfl
  rcases hf : find_existing store ( SnippetFile.new args.git t v args.path sha).pfx with _ | ex
  · simp only [afterResolve, hf]
    exact key _ [] (by simp)
  · by_cases hc : ex.commit_hash = sha
    · simp only [afterResolve, hf, if_pos hc]
      intro ev hev
      simp at hev
    · simp only [afterResolve, hf, if_neg hc]
      exact key _ [Event.removeFile ex.full_name] (by simp [isLocalEvent])

/-- The result of `afterResolve` is never a resolution error. -/
theorem afterResolve_no_resolution_error (args : Args) (env : RemoteEnv)
    (t v sha : String) (store : Store) (e : String) :
    (afterResolve args env t v sha store).result ≠ .error (.resolution e) := by
  rcases hf : find_existing store ( SnippetFile.new args.git t v args.path sha).pfx with _ | ex
  · simp only [afterResolve, hf]
    exact (fetchAndWrite_result_kinds args env _ _ [] e).1
  · by_cases hc : ex.commit_hash = sha
    · simp only [afterResolve, hf, if_pos hc]
      simp
    · simp only [afterResolve, hf, if_neg hc]
      exact (fetchAndWrite_result_kinds args env _ _ [Event.removeFile ex.full_name] e).1

/-- Whether an event is the remote default-branch handshake. -/
def isDbl : Event → Bool
  | .defaultBranchLookup => true
  | _ => false

/-- Number of default-branch handshakes in a trace. -/
def countDbl (evs : List Event) : Nat := evs.countP isDbl

/-- No default-branch handshake happens after resolution. -/
theorem countP_isDbl_afterResolve (args : Args) (env : RemoteEnv)
    (t v sha : String) (store : Store) :
    List.countP isDbl (afterResolve args env t v sha store).events = 0 := by
  rw [List.countP_eq_zero]
  intro ev hev
  have hl := afterResolve_events_local args env t v sha store ev hev
  cases ev <;> simp_all [isLocalEvent, isDbl]

/-! ## Claim C2: the cache-key formula -/

/-- C2 counterexample: at a concrete request the code's derived prefix is
not `H(H(repo_url) ‖ "-" ‖ H(selector_kind ‖ "-" ‖ selector_value) ‖ "-" ‖
H(full_path) ‖ "-" ‖ base_name)` — the spec's formula applies the digest
function once more around the whole concatenation, which the code never
does (main.rs 66-72). -/
theorem C2_counterexample :
    ( SnippetFile.new "https://example.com/repo.git" "branch" "main" "src/lib.rs" "abc123").pfx ≠
      specCacheKey "https://example.com/repo.git" "branch" "main" "src/lib.rs" := by
  decide

/-- C2 (amended): for every request, the derived cache-key prefix equals
`H(repo_url) ‖ "-" ‖ H(selector_kind ‖ "-" ‖ selector_value) ‖ "-" ‖
H(full_path) ‖ "-" ‖ base_name`, where `H` is the digest function
truncated to 8 hex characters and `base_name` the final path component —
the spec's formula with its outer `H` application removed. -/
theorem C2_prefix_formula (url kind value path sha : String) :
    ( SnippetFile.new url kind value path sha).pfx = specCacheKeyAmended url kind value path := by
  simp only [SnippetFile.new, specCacheKeyAmended, hash_git_url, hash_git_option]

/-! ## Claim C5: selector exclusivity -/

/-- C5: whenever two or more of branch, tag and commit-hash are supplied,
the run fails with the validation error before any resolution attempt or
network activity (the trace is empty) and the snippet store is untouched
(main.rs 116-128). -/
theorem C5_selector_exclusivity (args : Args) (env : RemoteEnv) (store : Store)
    (h : 2 ≤ options_count args) :
    gitMain args env store =
      ⟨.error (.validation "Only one of --branch, --tag, or --commit_hash can be specified"),
       store, []⟩ := by
  unfold gitMain
  rw [if_pos (by omega)]

/-- An environment whose every remote operation fails: used by witnesses
for runs that must not touch the network. -/
def envInert : RemoteEnv :=
  ⟨.error "unreachable", fun _ => .error "unreachable", fun _ => .error "unreachable",
   fun _ => .error "unreachable"⟩

/-- C5 witness: branch and tag supplied together fail validation. -/
theorem C5_witness :
    gitMain ⟨"https://example.com/r.git", some "dev", some "v1", none, "src/lib.rs"⟩ envInert
        ⟨false, []⟩ =
      ⟨.error (.validation "Only one of --branch, --tag, or --commit_hash can be specified"),
       ⟨false, []⟩, []⟩ :=
  C5_selector_exclusivity _ envInert _ (by decide)

/-! ## Claim C8: lookup without a backing directory -/

/-- C8: for every prefix, when the store's backing directory does not
exist, `find_existing` returns `none` rather than failing
(main.rs 84-87). -/
theorem C8_missing_dir (store : Store) (pre : String) (h : store.dirExists = false) :
    find_existing store pre = none := by
  simp [find_existing, h]

/-- C8 witness: a store whose directory is absent, even with a matching
entry listed, yields no record. -/
theorem C8_witness : find_existing ⟨false, [("a-b.rs", [104, 105])]⟩ "a" = none :=
  C8_missing_dir ⟨false, [("a-b.rs", [104, 105])]⟩ "a" rfl

/-! ## Claim C7: explicit commit-hash selector -/

/-- C7: with an explicit commit-hash selector the resolved commit is the
hash itself and the run is exactly the post-resolution phase: its trace
contains no default-branch handshake and no ref fetch (no remote-access
call during resolution), and its result is never a resolution error — the
hash's existence is checked only by the materialization fetch
(main.rs 133-134, 329-337). -/
theorem C7_commit_selector (g p h : String) (env : RemoteEnv) (store : Store) :
    gitMain ⟨g, none, none, some h, p⟩ env store =
      afterResolve ⟨g, none, none, some h, p⟩ env "commit" h h store ∧
    Event.defaultBranchLookup ∉ (gitMain ⟨g, none, none, some h, p⟩ env store).events ∧
    (∀ r, Event.refFetch r ∉ (gitMain ⟨g, none, none, some h, p⟩ env store).events) ∧
    ∀ e, (gitMain ⟨g, none, none, some h, p⟩ env store).result ≠ .error (.resolution e) := by
  have h1 : gitMain ⟨g, none, none, some h, p⟩ env store =
      afterResolve ⟨g, none, none, some h, p⟩ env "commit" h h store := rfl
  refine ⟨h1, ?_, ?_, ?_⟩
  · rw [h1]
    intro hmem
    have hl := afterResolve_events_local _ env "commit" h h store _ hmem
    simp [isLocalEvent] at hl
  · intro r
    rw [h1]
    intro hmem
    have hl := afterResolve_events_local _ env "commit" h h store _ hmem
    simp [isLocalEvent] at hl
  · intro e
    rw [h1]
    exact afterResolve_no_resolution_error _ env "commit" h h store e

/-! ## Claim C3: idempotent cache hit -/

/-- C3: when the store holds a record for the request's prefix whose
embedded commit equals the freshly resolved commit, the orchestrator's
post-resolution phase performs no fetch and no store operation at all
(empty trace), leaves the store unchanged, and reports the existing
record's path (main.rs 176-182). -/
theorem C3_cache_hit (args : Args) (env : RemoteEnv) (t v sha : String) (store : Store)
    (ex : SnippetFile)
    (hfind : find_existing store ( SnippetFile.new args.git t v args.path sha).pfx = some ex)
    (hfresh : ex.commit_hash = sha) :
    afterResolve args env t v sha store = ⟨.ok (".snippets/" ++ ex.full_name), store, []⟩ := by
  simp only [afterResolve, hfind, if_pos hfresh]

/-- Fixture for the C3 witness: the cached snippet. -/
def snipC3 : SnippetFile :=
  SnippetFile.new "https://example.com/r.git" "tag" "v2" "src/lib.rs" "c9sha"

/-- Fixture for the C3 witness: a store already holding the record. -/
def storeC3 : Store := ⟨true, [(snipC3.full_name, strBytes "cached content")]⟩

/-- C3 witness: a concrete fresh cache hit returns the existing path and
changes nothing. -/
theorem C3_witness :
    afterResolve ⟨"https://example.com/r.git", none, some "v2", none, "src/lib.rs"⟩ envInert
        "tag" "v2" "c9sha" storeC3 =
      ⟨.ok (".snippets/" ++ snipC3.full_name), storeC3, []⟩ :=
  C3_cache_hit ⟨"https://example.com/r.git", none, some "v2", none, "src/lib.rs"⟩ envInert
    "tag" "v2" "c9sha" storeC3 snipC3 (by decide) (by decide)

/-! ## Claim C1: when the stale record disappears -/

/-- Fixture for C1: the previously cached record, embedding commit
`c1sha`. -/
def oldSnipC1 : SnippetFile :=
  SnippetFile.new "https://example.com/r.git" "tag" "v1" "src/lib.rs" "c1sha"

/-- Fixture for C1: the request (tag selector `v1`). -/
def argsC1 : Args := ⟨"https://example.com/r.git", none, some "v1", none, "src/lib.rs"⟩

/-- Fixture for C1: tag `v1` now resolves to `c2sha`, but the content
fetch fails. -/
def envC1 : RemoteEnv :=
  { defaultBranch := .ok "refs/heads/main"
    branchCommit := fun _ => .error "no branch fetch"
    tagCommit := fun t => if t = "v1" then .ok "c2sha" else .error "unknown tag"
    commitTree := fun _ => .error "network down" }

/-- Fixture for C1: the store holding the stale record. -/
def storeC1 : Store := ⟨true, [(oldSnipC1.full_name, strBytes "old content")]⟩

/-- C1 counterexample: a stale record exists for the request's prefix, the
content fetch fails — yet the final store no longer contains the previous
record: the claim that a fetch failure leaves the previous record
untouched is false (the code removes it at main.rs 190, before the fetch
at main.rs 201). -/
theorem C1_counterexample :
    find_existing storeC1 oldSnipC1.pfx = some oldSnipC1 ∧
    (gitMain argsC1 envC1 storeC1).result = .error (.fetch "network down") ∧
    (gitMain argsC1 envC1 storeC1).store.files = [] := by
  decide

/-- C1 (amended): a stale record is removed as soon as staleness is
detected, BEFORE the new content is fetched — the first traced
post-resolution event is the removal — and hence when the fetch or the
file read fails, the store already lacks the previous record: the final
store is exactly the original one minus that record. -/
theorem C1_stale_removed_before_fetch (args : Args) (env : RemoteEnv)
    (t v sha : String) (store : Store) (ex : SnippetFile)
    (hfind : find_existing store ( SnippetFile.new args.git t v args.path sha).pfx = some ex)
    (hstale : ex.commit_hash ≠ sha) :
    (afterResolve args env t v sha store).events.head? = some (.removeFile ex.full_name) ∧
    ∀ err, (afterResolve args env t v sha store).result = .error err →
      (afterResolve args env t v sha store).store.files =
        (removeRecord store ex.full_name).files := by
  have h1 : afterResolve args env t v sha store =
      fetchAndWrite args env ( SnippetFile.new args.git t v args.path sha)
        { removeRecord store ex.full_name with dirExists := true }
        [.removeFile ex.full_name] := by
    simp only [afterResolve, hfind, if_neg hstale]
  constructor
  · rw [h1]
    rcases fetchAndWrite_events_cases args env ( SnippetFile.new args.git t v args.path sha)
        { removeRecord store ex.full_name with dirExists := true }
        [Event.removeFile ex.full_name] with h | h <;> (rw [h]; rfl)
  · intro err herr
    rw [h1] at herr ⊢
    rw [fetchAndWrite_store_on_error _ _ _ _ _ _ herr]

/-- C1 witness: the amended claim at the concrete C1 scenario. -/
theorem C1_witness :
    (afterResolve argsC1 envC1 "tag" "v1" "c2sha" storeC1).events.head? =
      some (.removeFile oldSnipC1.full_name) ∧
    ∀ err, (afterResolve argsC1 envC1 "tag" "v1" "c2sha" storeC1).result = .error err →
      (afterResolve argsC1 envC1 "tag" "v1" "c2sha" storeC1).store.files =
        (removeRecord storeC1 oldSnipC1.full_name).files :=
  C1_stale_removed_before_fetch argsC1 envC1 "tag" "v1" "c2sha" storeC1 oldSnipC1
    (by decide) (by decide)

/-! ## Claim C6: exactness of the persisted bytes -/

/-- Fixture for the C6 counterexample: a request for a file holding the
single byte `0xFF`, which is not valid UTF-8. -/
def argsC6 : Args := ⟨"https://example.com/r.git", none, none, some "feedc0de", "data/blob.bin"⟩

/-- Fixture for the C6 counterexample: the commit's tree. -/
def wsC6 : String → Option (List Nat) :=
  fun q => if q = "data/blob.bin" then some [255] else none

/-- Fixture for the C6 counterexample: the remote serving that tree. -/
def envC6 : RemoteEnv :=
  ⟨.error "unused", fun _ => .error "unused", fun _ => .error "unused",
   fun sha => if sha = "feedc0de" then .ok wsC6 else .error "no such commit"⟩

/-- C6 counterexample: the requested file exists in the materialized tree
with content `[0xFF]`, but the run fails with an invalid-data error and
persists nothing — `read_to_string` (main.rs 211) requires UTF-8, so the
claim's "for arbitrary byte content" is false. -/
theorem C6_counterexample :
    wsC6 argsC6.path = some [255] ∧
    (gitMain argsC6 envC6 ⟨false, []⟩).result = .error .invalidData ∧
    (gitMain argsC6 envC6 ⟨false, []⟩).store.files = [] := by
  decide

/-- C6 (amended): for every file of the materialized commit tree whose
bytes are valid UTF-8, the extraction reads and persists exactly those
bytes, with no additional framing; non-UTF-8 content instead fails the
run with an invalid-data error (main.rs 209-217 reads via
`read_to_string` and writes the string back unmodified). -/
theorem C6_utf8_exact_bytes (args : Args) (env : RemoteEnv) (t v sha : String) (store : Store)
    (ws : String → Option (List Nat)) (content : List Nat)
    (hnone : find_existing store ( SnippetFile.new args.git t v args.path sha).pfx = none)
    (hfetch : env.commitTree sha = .ok ws)
    (hread : ws args.path = some content)
    (hutf8 : isUtf8 content = true) :
    (afterResolve args env t v sha store).result =
      .ok (".snippets/" ++ ( SnippetFile.new args.git t v args.path sha).full_name) ∧
    (afterResolve args env t v sha store).store.files =
      store.files ++ [(( SnippetFile.new args.git t v args.path sha).full_name, content)] := by
  have h2 : ( SnippetFile.new args.git t v args.path sha).commit_hash = sha := rfl
  have h1 : afterResolve args env t v sha store =
      fetchAndWrite args env ( SnippetFile.new args.git t v args.path sha)
        { store with dirExists := true } [] := by
    simp only [afterResolve, hnone]
  rw [h1]
  simp only [fetchAndWrite, clone_and_checkout_repo, read_to_string, h2, hfetch, hread, hutf8]
  exact ⟨rfl, rfl⟩

/-- Fixture for the C6 witness: a two-byte UTF-8 sequence and a newline,
persisted byte for byte. -/
def wsC6w : String → Option (List Nat) :=
  fun q => if q = "docs/note.txt" then some [195, 169, 10] else none

/-- Fixture for the C6 witness: the remote serving that tree. -/
def envC6w : RemoteEnv :=
  ⟨.ok "refs/heads/main", fun _ => .error "unused", fun _ => .error "unused",
   fun sha => if sha = "c7sha" then .ok wsC6w else .error "no such commit"⟩

/-- C6 witness: the amended claim at a concrete multi-byte UTF-8 file. -/
theorem C6_witness :
    (afterResolve ⟨"https://example.com/r.git", some "main", none, none, "docs/note.txt"⟩
        envC6w "branch" "main" "c7sha" ⟨false, []⟩).result =
      .ok (".snippets/" ++
        ( SnippetFile.new "https://example.com/r.git" "branch" "main" "docs/note.txt"
          "c7sha").full_name) ∧
    (afterResolve ⟨"https://example.com/r.git", some "main", none, none, "docs/note.txt"⟩
        envC6w "branch" "main" "c7sha" ⟨false, []⟩).store.files =
      Store.files ⟨false, []⟩ ++
        [(( SnippetFile.new "https://example.com/r.git" "branch" "main" "docs/note.txt"
          "c7sha").full_name, [195, 169, 10])] :=
  C6_utf8_exact_bytes ⟨"https://example.com/r.git", some "main", none, none, "docs/note.txt"⟩
    envC6w "branch" "main" "c7sha" ⟨false, []⟩ wsC6w [195, 169, 10] (by decide) rfl rfl (by decide)

/-! ## Claim C9: missing path in the commit tree -/

/-- C9: when the commit is materialized successfully but its tree lacks
the requested path, and the cache did not already hold a fresh record, the
run fails with the file-not-found error — an error distinct from every
fetch error — and writes no new snippet record: every file of the final
store was already in the initial one (main.rs 209-217). -/
theorem C9_missing_path (args : Args) (env : RemoteEnv) (t v sha : String) (store : Store)
    (ws : String → Option (List Nat))
    (hmiss : ∀ ex, find_existing store ( SnippetFile.new args.git t v args.path sha).pfx =
      some ex → ex.commit_hash ≠ sha)
    (hfetch : env.commitTree sha = .ok ws)
    (hread : ws args.path = none) :
    (afterResolve args env t v sha store).result = .error .fileNotFound ∧
    (∀ f ∈ (afterResolve args env t v sha store).store.files, f ∈ store.files) ∧
    ∀ e, MainError.fileNotFound ≠ MainError.fetch e := by
  have h2 : ( SnippetFile.new args.git t v args.path sha).commit_hash = sha := rfl
  have key : ∀ (st : Store), (∀ f ∈ st.files, f ∈ store.files) → ∀ evs,
      (fetchAndWrite args env ( SnippetFile.new args.git t v args.path sha) st evs).result =
        .error .fileNotFound ∧
      ∀ f ∈ (fetchAndWrite args env ( SnippetFile.new args.git t v args.path sha)
        st evs).store.files, f ∈ store.files := by
    intro st hst evs
    have heq : fetchAndWrite args env ( SnippetFile.new args.git t v args.path sha) st evs =
        ⟨.error .fileNotFound, st,
         evs ++ [.commitFetch ( SnippetFile.new args.git t v args.path sha).commit_hash]⟩ := by
      simp only [fetchAndWrite, clone_and_checkout_repo, read_to_string, h2, hfetch, hread]
    rw [heq]
    exact ⟨rfl, hst⟩
  rcases hf : find_existing store ( SnippetFile.new args.git t v args.path sha).pfx with _ | ex
  · have h1 : afterResolve args env t v sha store =
        fetchAndWrite args env ( SnippetFile.new args.git t v args.path sha)
          { store with dirExists := true } [] := by
      simp only [afterResolve, hf]
    rw [h1]
    obtain ⟨r1, r2⟩ := key { store with dirExists := true } (fun f hf0 => hf0) []
    exact ⟨r1, r2, fun e he => by cases he⟩
  · have hstale : ex.commit_hash ≠ sha := hmiss ex hf
    have h1 : afterResolve args env t v sha store =
        fetchAndWrite args env ( SnippetFile.new args.git t v args.path sha)
          { removeRecord store ex.full_name with dirExists := true }
          [.removeFile ex.full_name] := by
      simp only [afterResolve, hf, if_neg hstale]
    rw [h1]
    obtain ⟨r1, r2⟩ := key { removeRecord store ex.full_name with dirExists := true }
      (fun f hf0 => (List.mem_filter.mp hf0).1) [.removeFile ex.full_name]
    exact ⟨r1, r2, fun e he => by cases he⟩

/-- Fixture for the C9 witness: a commit tree with no files at all. -/
def wsC9 : String → Option (List Nat) := fun _ => none

/-- Fixture for the C9 witness: the remote serving that tree. -/
def envC9 : RemoteEnv :=
  ⟨.error "unused", fun _ => .error "unused", fun _ => .error "unused",
   fun sha => if sha = "beefcafe" then .ok wsC9 else .error "no such commit"⟩

/-- Fixture for the C9 witness: the request naming a path the tree does
not contain. -/
def argsC9 : Args := ⟨"https://example.com/r.git", none, none, some "beefcafe", "missing/file.rs"⟩

/-- C9 witness: the claim at a concrete commit tree lacking the requested
path. -/
theorem C9_witness :
    (afterResolve argsC9 envC9 "commit" "beefcafe" "beefcafe" ⟨false, []⟩).result =
      .error .fileNotFound ∧
    (∀ f ∈ (afterResolve argsC9 envC9 "commit" "beefcafe" "beefcafe" ⟨false, []⟩).store.files,
      f ∈ Store.files ⟨false, []⟩) ∧
    ∀ e, MainError.fileNotFound ≠ MainError.fetch e :=
  C9_missing_path argsC9 envC9 "commit" "beefcafe" "beefcafe" ⟨false, []⟩ wsC9
    (fun ex hex => by simp [find_existing] at hex) rfl rfl

/-! ## Claim C4: correct invalidation -/

/-- C4: given a store that respects the store invariant — the request's
prefix matches exactly one record, named `{prefix}-{C1}.rs` — a new
resolution yielding a commit `C2 ≠ C1`, and a successful fetch and read,
the final store holds exactly one record for the prefix: the one named
with `C2`, containing the file's bytes at `C2`; no record named with `C1`
remains (main.rs 176-217). -/
theorem C4_invalidation (args : Args) (env : RemoteEnv) (t v sha c1 : String) (store : Store)
    (ex : SnippetFile) (ws : String → Option (List Nat)) (content : List Nat)
    (hfind : find_existing store ( SnippetFile.new args.git t v args.path sha).pfx = some ex)
    (hcommit : ex.commit_hash = c1)
    (hname : ex.full_name =
      ( SnippetFile.new args.git t v args.path sha).pfx ++ "-" ++ c1 ++ ".rs")
    (hne : c1 ≠ sha)
    (huniq : ∀ f ∈ store.files,
      starts_with f.1 ( SnippetFile.new args.git t v args.path sha).pfx = true →
      f.1 = ex.full_name)
    (hfetch : env.commitTree sha = .ok ws)
    (hread : ws args.path = some content)
    (hutf8 : isUtf8 content = true) :
    (afterResolve args env t v sha store).result =
      .ok (".snippets/" ++ ( SnippetFile.new args.git t v args.path sha).full_name) ∧
    (afterResolve args env t v sha store).store.files.filter
        (fun f => starts_with f.1 ( SnippetFile.new args.git t v args.path sha).pfx) =
      [(( SnippetFile.new args.git t v args.path sha).full_name, content)] ∧
    ∀ f ∈ (afterResolve args env t v sha store).store.files, f.1 ≠ ex.full_name := by
  have hstale : ex.commit_hash ≠ sha := by rw [hcommit]; exact hne
  have h2 : ( SnippetFile.new args.git t v args.path sha).commit_hash = sha := rfl
  have hfull : ( SnippetFile.new args.git t v args.path sha).full_name =
      ( SnippetFile.new args.git t v args.path sha).pfx ++ "-" ++ sha ++ ".rs" := rfl
  have h1 : afterResolve args env t v sha store =
      fetchAndWrite args env ( SnippetFile.new args.git t v args.path sha)
        { removeRecord store ex.full_name with dirExists := true }
        [.removeFile ex.full_name] := by
    simp only [afterResolve, hfind, if_neg hstale]
  rw [h1]
  simp only [fetchAndWrite, clone_and_checkout_repo, read_to_string, h2, hfetch, hread, hutf8]
  refine ⟨rfl, ?_, ?_⟩
  · show ((removeRecord store ex.full_name).files ++
        [(( SnippetFile.new args.git t v args.path sha).full_name, content)]).filter
        (fun f => starts_with f.1 ( SnippetFile.new args.git t v args.path sha).pfx) = _
    rw [List.filter_append]
    have hnil : (removeRecord store ex.full_name).files.filter
        (fun f => starts_with f.1 ( SnippetFile.new args.git t v args.path sha).pfx) = [] := by
      rw [List.filter_eq_nil_iff]
      intro f hf
      have hf0 : f ∈ store.files := (List.mem_filter.mp hf).1
      have hneq : (f.1 != ex.full_name) = true := (List.mem_filter.mp hf).2
      intro hs
      exact absurd (huniq f hf0 hs) (by simpa using hneq)
    have hsw : starts_with ( SnippetFile.new args.git t v args.path sha).full_name
        ( SnippetFile.new args.git t v args.path sha).pfx = true :=
      starts_with_full_name ( SnippetFile.new args.git t v args.path sha).pfx sha ".rs"
    rw [hnil]
    simp [hsw]
  · intro f hf
    have hf' : f ∈ (removeRecord store ex.full_name).files ++
        [(( SnippetFile.new args.git t v args.path sha).full_name, content)] := hf
    rw [List.mem_append] at hf'
    rcases hf' with hf | hf
    · have hneq : (f.1 != ex.full_name) = true := (List.mem_filter.mp hf).2
      simpa using hneq
    · rw [List.mem_singleton] at hf
      rw [hf]
      show ( SnippetFile.new args.git t v args.path sha).full_name ≠ ex.full_name
      rw [hfull, hname]
      exact full_name_ne _ _ (Ne.symm hne)

/-- Fixture for the C4 witness: the stale record (commit `c1sha`). -/
def oldSnipC4 : SnippetFile :=
  SnippetFile.new "https://example.com/r.git" "branch" "main" "src/lib.rs" "c1sha"

/-- Fixture for the C4 witness: the request (explicit branch `main`). -/
def argsC4 : Args := ⟨"https://example.com/r.git", some "main", none, none, "src/lib.rs"⟩

/-- Fixture for the C4 witness: the new commit's tree. -/
def wsC4 : String → Option (List Nat) :=
  fun q => if q = "src/lib.rs" then some (strBytes "new content") else none

/-- Fixture for the C4 witness: branch `main` now resolves to `c2sha`. -/
def envC4 : RemoteEnv :=
  ⟨.ok "refs/heads/main",
   fun br => if br = "main" then .ok "c2sha" else .error "unknown branch",
   fun _ => .error "unknown tag",
   fun sha => if sha = "c2sha" then .ok wsC4 else .error "no such commit"⟩

/-- Fixture for the C4 witness: the store holding the stale record. -/
def storeC4 : Store := ⟨true, [(oldSnipC4.full_name, strBytes "old content")]⟩

/-- C4 witness: the concrete invalidation run replaces `c1sha`'s record by
`c2sha`'s. -/
theorem C4_witness :
    (afterResolve argsC4 envC4 "branch" "main" "c2sha" storeC4).result =
      .ok (".snippets/" ++
        ( SnippetFile.new argsC4.git "branch" "main" argsC4.path "c2sha").full_name) ∧
    (afterResolve argsC4 envC4 "branch" "main" "c2sha" storeC4).store.files.filter
        (fun f => starts_with f.1
          ( SnippetFile.new argsC4.git "branch" "main" argsC4.path "c2sha").pfx) =
      [(( SnippetFile.new argsC4.git "branch" "main" argsC4.path "c2sha").full_name,
        strBytes "new content")] ∧
    ∀ f ∈ (afterResolve argsC4 envC4 "branch" "main" "c2sha" storeC4).store.files,
      f.1 ≠ oldSnipC4.full_name :=
  C4_invalidation argsC4 envC4 "branch" "main" "c2sha" "c1sha" storeC4 oldSnipC4 wsC4
    (strBytes "new content") (by decide) (by decide) (by decide) (by decide) (by decide)
    rfl rfl (by decide)

/-! ## Claim C10: the default-branch handshake -/

/-- C10: resolution performs the remote default-branch discovery handshake
even when an explicit branch or tag selector makes its result unnecessary
(main.rs 243-251): a failed handshake fails the whole resolution for
explicit branch and tag selectors alike; the handshake is the first traced
event; and a request with no selector performs the handshake twice — once
in `get_default_branch` (main.rs 143) and again inside
`get_remote_commit_sha_without_clone` (main.rs 245-251) — as does a
request with an explicit branch. -/
theorem C10_default_branch_handshake (g b t p : String) (env : RemoteEnv) (store : Store) :
    (∀ e, env.defaultBranch = .error e →
      (gitMain ⟨g, some b, none, none, p⟩ env store).result = .error (.resolution e) ∧
      (gitMain ⟨g, none, some t, none, p⟩ env store).result = .error (.resolution e)) ∧
    (∀ d, env.defaultBranch = .ok d →
      countDbl (gitMain ⟨g, none, some t, none, p⟩ env store).events = 1 ∧
      countDbl (gitMain ⟨g, some b, none, none, p⟩ env store).events = 2 ∧
      countDbl (gitMain ⟨g, none, none, none, p⟩ env store).events = 2 ∧
      (gitMain ⟨g, none, some t, none, p⟩ env store).events.head? =
        some .defaultBranchLookup ∧
      (gitMain ⟨g, some b, none, none, p⟩ env store).events.head? =
        some .defaultBranchLookup) := by
  have hoc_b : options_count ⟨g, some b, none, none, p⟩ = 1 := rfl
  have hoc_t : options_count ⟨g, none, some t, none, p⟩ = 1 := rfl
  have hoc_n : options_count ⟨g, none, none, none, p⟩ = 0 := rfl
  constructor
  · intro e he
    constructor
    · simp [gitMain, hoc_b, get_default_branch, he]
    · simp [gitMain, hoc_t, get_remote_commit_sha_without_clone, he]
  · intro d hd
    refine ⟨?_, ?_, ?_, ?_, ?_⟩
    · rcases htc : env.tagCommit t with e | sha <;>
        simp [gitMain, hoc_t, get_remote_commit_sha_without_clone, hd, htc, countDbl,
          List.countP_append, List.countP_cons, isDbl, countP_isDbl_afterResolve]
    · rcases hbc : env.branchCommit b with e | sha <;>
        simp [gitMain, hoc_b, get_default_branch, get_remote_commit_sha_without_clone, hd, hbc,
          countDbl, List.countP_append, List.countP_cons, isDbl, countP_isDbl_afterResolve]
    · rcases hbc : env.branchCommit (stripHeads d) with e | sha <;>
        simp [gitMain, hoc_n, get_default_branch, get_remote_commit_sha_without_clone, hd, hbc,
          countDbl, List.countP_append, List.countP_cons, isDbl, countP_isDbl_afterResolve]
    · rcases htc : env.tagCommit t with e | sha <;>
        simp [gitMain, hoc_t, get_remote_commit_sha_without_clone, hd, htc]
    · rcases hbc : env.branchCommit b with e | sha <;>
        simp [gitMain, hoc_b, get_default_branch, get_remote_commit_sha_without_clone, hd, hbc]

/-- Fixture for the C10 witness: a remote whose handshake succeeds and
whose `main` branch resolves. -/
def envC10ok : RemoteEnv :=
  ⟨.ok "refs/heads/main",
   fun br => if br = "main" then .ok "m1sha" else .error "unknown branch",
   fun _ => .error "unknown tag", fun _ => .error "network down"⟩

/-- Fixture for the C10 witness: a remote whose handshake fails. -/
def envC10err : RemoteEnv :=
  ⟨.error "handshake failed", fun _ => .error "x", fun _ => .error "x", fun _ => .error "x"⟩

/-- C10 witness: a tag request fails on the handshake failure although the
default branch is not needed, and a selector-free request performs the
handshake twice. -/
theorem C10_witness :
    (gitMain ⟨"u", none, some "v1", none, "f.rs"⟩ envC10err ⟨false, []⟩).result =
      .error (.resolution "handshake failed") ∧
    countDbl (gitMain ⟨"u", none, none, none, "f.rs"⟩ envC10ok ⟨false, []⟩).events = 2 :=
  ⟨((C10_default_branch_handshake "u" "dev" "v1" "f.rs" envC10err ⟨false, []⟩).1
      "handshake failed" rfl).2,
   (((C10_default_branch_handshake "u" "dev" "v1" "f.rs" envC10ok ⟨false, []⟩).2
      "refs/heads/main" rfl).2).2.1⟩

end GitHash
